import Mathlib

/-!
Shallow embedding of the telemetry normalization and view-model derivation
engine implemented in `src/src/App.js` of the DataAkamuthu frontend.

Modelling conventions:
- A JS number that may be `NaN` is modelled as `Option Int`, with `none`
  standing for `NaN` (`new Date(s).getTime()` on an unparseable string is
  `NaN`, never an exception).  Finite instants and metric readings are `Int`.
- Date parsing (`new Date(string)`) and locale formatting
  (`Date.prototype.toLocaleString` on a valid date) are runtime/locale
  services; they are passed in as explicit parameters
  `pf : String → Option Int` (`none` = invalid date) and `fmt : Int → String`.
  `toLocaleString` on an invalid date yields the string "Invalid Date".
- `Array.prototype.sort` is modelled as a stable insertion sort `jsSort`
  driven by a boolean "comparator ≤ 0" relation; the ECMAScript SortCompare
  step maps a NaN comparator result to +0, which `sortKeyLe` reflects.
- JSX cell content `entry.temperature || 'N/A'` renders either the raw
  number or the sentinel; that union is modelled by `CellVal`.
- `Array.prototype.sort` mutates the receiver in place and returns it.  The
  table render path calls `selectedData.sort(...)` directly, while the chart
  path copies first (`[...selectedData]`).  `tableRender`/`seriesRender`
  therefore return, besides the view output, the contents of the stored
  batch array after the call.
-/

namespace DataAkamuthu

/-- Value of a wrapper object's `$date` sub-field: a date string or an
epoch number (Mongo extended-JSON shapes). -/
inductive JSDateArg where
  | dstr (s : String)
  | dnum (n : Int)
deriving DecidableEq, Repr

/-- JS truthiness of a `$date` sub-field value. -/
def JSDateArg.truthy : JSDateArg → Bool
  | .dstr s => s ≠ ""
  | .dnum n => n ≠ 0

/-- The `timestamp` field of a record: absent/null, a wrapper object (whose
`$date` property may be absent), a string, or a number. -/
inductive TSField where
  | missing
  | obj (date : Option JSDateArg)
  | str (s : String)
  | num (n : Int)
deriving DecidableEq, Repr

/-- JS truthiness of the `timestamp` field (`if (entry.timestamp)`):
objects are always truthy, `""` and `0` and null/undefined are falsy. -/
def TSField.truthy : TSField → Bool
  | .missing => false
  | .obj _ => true
  | .str s => s ≠ ""
  | .num n => n ≠ 0

/-- The `$date` property access `entry.timestamp.$date`: defined only on the
wrapper object, `undefined` (here `none`) on every other shape. -/
def TSField.dollarDate : TSField → Option JSDateArg
  | .obj d => d
  | _ => none

/-- A telemetry record as consumed by `App.js`; metric readings are numeric
or absent/null. -/
structure Entry where
  timestamp : TSField
  temperature : Option Int
  humidity : Option Int
  pressure : Option Int
  percentage_light_intensity : Option Int
deriving DecidableEq, Repr

/-- The four chartable metric keys used by the component. -/
inductive Metric where
  | temperature
  | humidity
  | pressure
  | percentage_light_intensity
deriving DecidableEq, Repr

/-- Dynamic field access `entry[key]` for a metric key. -/
def Entry.metric (e : Entry) : Metric → Option Int
  | .temperature => e.temperature
  | .humidity => e.humidity
  | .pressure => e.pressure
  | .percentage_light_intensity => e.percentage_light_intensity

/-- `new Date(x).getTime()` for the `$date` sub-field value `x`: a string is
parsed (`none` = NaN on unparseable content), a number is the epoch itself. -/
def newDateGetTime (pf : String → Option Int) : JSDateArg → Option Int
  | .dstr s => pf s
  | .dnum n => some n

/-- `getTimeValue` (App.js lines 56-63): the sort-key accessor.  Sequential
shape sniffing under a truthiness guard; falls through to `0`. -/
def getTimeValue (pf : String → Option Int) (e : Entry) : Option Int :=
  if e.timestamp.truthy then
    match e.timestamp with
    | .obj (some d) => if d.truthy then newDateGetTime pf d else some 0
    | .str s => pf s
    | .num n => some n
    | _ => some 0
  else
    some 0

/-- `Date.prototype.toLocaleString` on a possibly-invalid date value. -/
def jsToLocaleString (fmt : Int → String) : Option Int → String
  | some t => fmt t
  | none => "Invalid Date"

/-- `formatTimestamp` (App.js lines 65-72): the chart display accessor with
sentinel "Invalid". -/
def formatTimestamp (pf : String → Option Int) (fmt : Int → String) (e : Entry) : String :=
  if e.timestamp.truthy then
    match e.timestamp with
    | .obj (some d) => if d.truthy then jsToLocaleString fmt (newDateGetTime pf d) else "Invalid"
    | .str s => jsToLocaleString fmt (pf s)
    | .num n => jsToLocaleString fmt (some n)
    | _ => "Invalid"
  else
    "Invalid"

/-- `dateStr` computation in the table body (App.js lines 168-177): the
table display accessor with sentinel "Invalid or Missing Date". -/
def tableDateStr (pf : String → Option Int) (fmt : Int → String) (e : Entry) : String :=
  if e.timestamp.truthy then
    match e.timestamp with
    | .obj (some d) =>
        if d.truthy then jsToLocaleString fmt (newDateGetTime pf d) else "Invalid or Missing Date"
    | .str s => jsToLocaleString fmt (pf s)
    | .num n => jsToLocaleString fmt (some n)
    | _ => "Invalid or Missing Date"
  else
    "Invalid or Missing Date"

/-- JS subtraction on possibly-NaN numbers: NaN is absorbing. -/
def jsSub : Option Int → Option Int → Option Int
  | some a, some b => some (a - b)
  | _, _ => none

/-- ECMAScript SortCompare on a comparator result: "is the comparator value
at most 0"; a NaN result is replaced by +0, hence `true`. -/
def sortKeyLe : Option Int → Bool
  | some v => v ≤ 0
  | none => true

/-- The JS `<=` relation on possibly-NaN numbers: any comparison involving
NaN is false. -/
def jsLeB : Option Int → Option Int → Bool
  | some a, some b => a ≤ b
  | _, _ => false

/-- Insertion step of the stable sort modelling `Array.prototype.sort`. -/
def jsInsert (le : α → α → Bool) (a : α) : List α → List α
  | [] => [a]
  | b :: l => if le a b then a :: b :: l else b :: jsInsert le a l

/-- Stable insertion sort modelling `Array.prototype.sort` with comparator
relation `le a b` = "comparator a b ≤ 0". -/
def jsSort (le : α → α → Bool) : List α → List α
  | [] => []
  | a :: l => jsInsert le a (jsSort le l)

/-- Boolean "every adjacent pair satisfies `r`". -/
def chainB (r : α → α → Bool) : List α → Bool
  | [] => true
  | [_] => true
  | a :: b :: t => r a b && chainB r (b :: t)

/-- Filter for records carrying any telemetry at all (App.js line 121). -/
def hasTelemetry (e : Entry) : Bool :=
  e.temperature.isSome || e.humidity.isSome || e.pressure.isSome ||
    e.percentage_light_intensity.isSome

/-- `hasLightIntensity` (App.js lines 52-53): `hasData && selectedData.some
(entry => entry.percentage_light_intensity != null)` for a present batch. -/
def hasLightIntensity (batch : List Entry) : Bool :=
  decide (0 < batch.length) && batch.any fun e => e.percentage_light_intensity.isSome

/-- The chart metric list (App.js lines 114-118): the three fixed metrics,
plus the light-intensity key when `hasLightIntensity` holds. -/
def availableMetrics (batch : List Entry) : List Metric :=
  [Metric.temperature, Metric.humidity, Metric.pressure] ++
    (if hasLightIntensity batch then [Metric.percentage_light_intensity] else [])

/-- The series comparator relation `(a, b) => getTimeValue(a) - getTimeValue(b)`
(App.js line 123), as "comparator ≤ 0". -/
def seriesLe (pf : String → Option Int) (a b : Entry) : Bool :=
  sortKeyLe (jsSub (getTimeValue pf a) (getTimeValue pf b))

/-- The record sequence underlying `seriesData` (App.js lines 120-123):
copy, drop records without telemetry, drop records without the requested
metric, sort ascending by the time comparator. -/
def seriesRecords (pf : String → Option Int) (batch : List Entry) (m : Metric) : List Entry :=
  jsSort (seriesLe pf) ((batch.filter hasTelemetry).filter fun e => (e.metric m).isSome)

/-- One chart point `{ time, value }` (App.js lines 124-127). -/
structure SeriesPoint where
  time : String
  value : Option Int
deriving DecidableEq, Repr

/-- `seriesData` (App.js lines 120-127) for one metric key. -/
def buildSeries (pf : String → Option Int) (fmt : Int → String)
    (batch : List Entry) (m : Metric) : List SeriesPoint :=
  (seriesRecords pf batch m).map fun e =>
    { time := formatTimestamp pf fmt e, value := e.metric m }

/-- The chart derivation together with the stored batch after the call: the
chart path sorts a spread copy `[...selectedData]`, so the stored array is
untouched. -/
def seriesRender (pf : String → Option Int) (fmt : Int → String)
    (batch : List Entry) (m : Metric) : List SeriesPoint × List Entry :=
  (buildSeries pf fmt batch m, batch)

/-- What a table cell `{entry.x || 'N/A'}` renders: the raw number, or the
sentinel when the raw value is falsy. -/
inductive CellVal where
  | num (n : Int)
  | na
deriving DecidableEq, Repr

/-- JSX expression `{v || 'N/A'}` on a numeric-or-absent value: falsy
(absent, null, or the number 0) renders the sentinel. -/
def renderCell : Option Int → CellVal
  | some n => if n = 0 then .na else .num n
  | none => .na

/-- One rendered table row (App.js lines 178-186); the light-intensity cell
exists only when the optional column is rendered. -/
structure TableRow where
  dateStr : String
  temperature : CellVal
  humidity : CellVal
  pressure : CellVal
  lightIntensity : Option CellVal
deriving DecidableEq, Repr

/-- The table comparator relation `(a, b) => getTimeValue(b) - getTimeValue(a)`
(App.js line 166), as "comparator ≤ 0" (descending time). -/
def tableLe (pf : String → Option Int) (a b : Entry) : Bool :=
  sortKeyLe (jsSub (getTimeValue pf b) (getTimeValue pf a))

/-- The record order of the table body: `selectedData.sort(...)`. -/
def tableRecords (pf : String → Option Int) (batch : List Entry) : List Entry :=
  jsSort (tableLe pf) batch

/-- One table row (App.js lines 178-186), with the optional column gated on
the batch-global flag. -/
def buildTableRow (pf : String → Option Int) (fmt : Int → String)
    (light : Bool) (e : Entry) : TableRow :=
  { dateStr := tableDateStr pf fmt e
    temperature := renderCell e.temperature
    humidity := renderCell e.humidity
    pressure := renderCell e.pressure
    lightIntensity :=
      if light then some (renderCell e.percentage_light_intensity) else none }

/-- The table derivation (App.js lines 165-187) together with the stored
batch after the call: `selectedData.sort(...)` sorts the stored array in
place, so after rendering the stored array holds the sorted order. -/
def tableRender (pf : String → Option Int) (fmt : Int → String)
    (batch : List Entry) : List TableRow × List Entry :=
  ((tableRecords pf batch).map (buildTableRow pf fmt (hasLightIntensity batch)),
    tableRecords pf batch)

/-- The rendered rows of the table body. -/
def buildTableRows (pf : String → Option Int) (fmt : Int → String)
    (batch : List Entry) : List TableRow :=
  (tableRender pf fmt batch).1

/-- The selection store: `selectedData` and `selectedProfile` React state
(App.js lines 30-31), both absent before the first successful fetch. -/
structure Store where
  selectedData : Option (List Entry)
  selectedProfile : Option String
deriving DecidableEq, Repr

/-- `handleClick` (App.js lines 42-50), with the outcome of the axios fetch
made explicit.  Returns the store after the handler settles together with
the console messages emitted: on success both state fields are replaced; on
failure the state is untouched and the error goes to the console only. -/
def handleClick (id : Int) (result : Except String (List Entry)) (name : String)
    (st : Store) : Store × List String :=
  match result with
  | .ok d =>
      ({ selectedData := some d, selectedProfile := some name },
        ["Data loaded for ID " ++ toString id])
  | .error e => (st, ["Error loading data: " ++ e])

/-- A record carrying only a timestamp, every metric absent. -/
def entryWithTs (ts : TSField) : Entry :=
  { timestamp := ts, temperature := none, humidity := none, pressure := none,
    percentage_light_intensity := none }

/-- The shapes on which the code's shape sniffing falls through to the
sentinel defaults: falsy timestamps and wrapper objects without a truthy
`$date`. -/
def shapeUnresolved : TSField → Bool
  | .missing => true
  | .obj none => true
  | .obj (some d) => !d.truthy
  | .str s => s = ""
  | .num n => n = 0

/-- Concrete date parser used for witnesses. -/
def pfW : String → Option Int := fun s => if s = "D" then some 7 else none

/-- Concrete locale formatter used for witnesses. -/
def fmtW : Int → String := fun n => toString n

/-- Date parser on which every string is unparseable (counterexamples). -/
def pfNone : String → Option Int := fun _ => none

/-- A record with numeric timestamp `n` and a temperature reading. -/
def eNum (n : Int) : Entry :=
  { timestamp := .num n, temperature := some 1, humidity := none, pressure := none,
    percentage_light_intensity := none }

/-- A record with a truthy but unparseable string timestamp and a
temperature reading. -/
def eBad : Entry :=
  { timestamp := .str "not-a-date", temperature := some 1, humidity := none,
    pressure := none, percentage_light_intensity := none }

/-- Ascending-by-resolved-instant over all adjacent pairs, with JS `<=`
semantics on the instants. -/
def ascChain (pf : String → Option Int) (l : List Entry) : Bool :=
  chainB (fun a b => jsLeB (getTimeValue pf a) (getTimeValue pf b)) l

/-- Descending-by-resolved-instant over all adjacent pairs. -/
def descChain (pf : String → Option Int) (l : List Entry) : Bool :=
  chainB (fun a b => jsLeB (getTimeValue pf b) (getTimeValue pf a)) l

/-! ### Generic facts about the sort model -/

theorem mem_jsInsert {le : α → α → Bool} {a x : α} {l : List α} :
    x ∈ jsInsert le a l ↔ x = a ∨ x ∈ l := by
  induction l with
  | nil => simp [jsInsert]
  | cons b t ih =>
    by_cases h : le a b = true
    · simp [jsInsert, h]
    · simp [jsInsert, h, ih]
      tauto

theorem mem_jsSort {le : α → α → Bool} {x : α} {l : List α} :
    x ∈ jsSort le l ↔ x ∈ l := by
  induction l with
  | nil => simp [jsSort]
  | cons a t ih => simp [jsSort, mem_jsInsert, ih]

theorem length_jsInsert {le : α → α → Bool} (a : α) (l : List α) :
    (jsInsert le a l).length = l.length + 1 := by
  induction l with
  | nil => simp [jsInsert]
  | cons b t ih =>
    by_cases h : le a b = true
    · simp [jsInsert, h]
    · simp [jsInsert, h, ih]

theorem length_jsSort {le : α → α → Bool} (l : List α) :
    (jsSort le l).length = l.length := by
  induction l with
  | nil => rfl
  | cons a t ih => simp [jsSort, length_jsInsert, ih]

theorem chainB_jsInsert {le : α → α → Bool}
    (htot : ∀ x y, le x y = true ∨ le y x = true)
    (a : α) (l : List α) (hl : chainB le l = true) :
    chainB le (jsInsert le a l) = true := by
  induction l with
  | nil => simp [jsInsert, chainB]
  | cons b t ih =>
    by_cases hab : le a b = true
    · simpa [jsInsert, hab, chainB] using hl
    · have hba : le b a = true := (htot a b).resolve_left hab
      cases t with
      | nil => simp [jsInsert, hab, chainB, hba]
      | cons c t' =>
        have hbc : le b c = true := by
          have h := hl
          simp [chainB] at h
          exact h.1
        have hct : chainB le (c :: t') = true := by
          have h := hl
          simp [chainB] at h
          exact h.2
        by_cases hac : le a c = true
        · simp [jsInsert, hab, hac, chainB, hba, hct]
        · have h2 := ih hct
          simp [jsInsert, hac] at h2
          simp [jsInsert, hab, hac, chainB, hbc]
          exact h2

theorem chainB_jsSort {le : α → α → Bool}
    (htot : ∀ x y, le x y = true ∨ le y x = true) (l : List α) :
    chainB le (jsSort le l) = true := by
  induction l with
  | nil => rfl
  | cons a t ih => exact chainB_jsInsert htot a (jsSort le t) ih

theorem chainB_mono {r s : α → α → Bool} (l : List α)
    (h : ∀ a ∈ l, ∀ b ∈ l, r a b = true → s a b = true)
    (hc : chainB r l = true) : chainB s l = true := by
  induction l with
  | nil => rfl
  | cons a t ih =>
    cases t with
    | nil => rfl
    | cons c t' =>
      simp [chainB] at hc ⊢
      refine ⟨h a (by simp) c (by simp) hc.1, ?_⟩
      exact ih (fun x hx y hy => h x (List.mem_cons_of_mem a hx) y (List.mem_cons_of_mem a hy)) hc.2

theorem seriesLe_total (pf : String → Option Int) (x y : Entry) :
    seriesLe pf x y = true ∨ seriesLe pf y x = true := by
  unfold seriesLe
  rcases getTimeValue pf x with _ | a
  · simp [jsSub, sortKeyLe]
  · rcases getTimeValue pf y with _ | b
    · simp [jsSub, sortKeyLe]
    · simp only [jsSub, sortKeyLe, decide_eq_true_eq]
      omega

theorem tableLe_total (pf : String → Option Int) (x y : Entry) :
    tableLe pf x y = true ∨ tableLe pf y x = true := by
  unfold tableLe
  rcases getTimeValue pf x with _ | a
  · simp [jsSub, sortKeyLe]
  · rcases getTimeValue pf y with _ | b
    · simp [jsSub, sortKeyLe]
    · simp only [jsSub, sortKeyLe, decide_eq_true_eq]
      omega

theorem mem_of_mem_seriesRecords {pf : String → Option Int} {batch : List Entry}
    {m : Metric} {e : Entry} (h : e ∈ seriesRecords pf batch m) :
    e ∈ batch ∧ (e.metric m).isSome = true ∧ hasTelemetry e = true := by
  unfold seriesRecords at h
  rw [mem_jsSort] at h
  rw [List.mem_filter] at h
  obtain ⟨h1, h2⟩ := h
  rw [List.mem_filter] at h1
  exact ⟨h1.1, h2, h1.2⟩

/-! ### Claims -/

/-- C1: for a record whose timestamp is a wrapper object whose `$date`
sub-field denotes instant `t` (as a string or as the epoch number), a record
whose timestamp is a date string denoting `t`, and a record whose timestamp
is the number `t`, the sort-key accessor `getTimeValue` resolves all of them
to the same instant `t`. -/
theorem claim_C1 (pf : String → Option Int) (s : String) (t : Int)
    (hs : s ≠ "") (hp : pf s = some t) :
    getTimeValue pf (entryWithTs (.obj (some (.dstr s)))) = some t ∧
    getTimeValue pf (entryWithTs (.obj (some (.dnum t)))) = some t ∧
    getTimeValue pf (entryWithTs (.str s)) = some t ∧
    getTimeValue pf (entryWithTs (.num t)) = some t := by
  refine ⟨?_, ?_, ?_, ?_⟩
  · simp [getTimeValue, entryWithTs, TSField.truthy, JSDateArg.truthy, newDateGetTime, hs, hp]
  · by_cases ht : t = 0
    · subst ht
      simp [getTimeValue, entryWithTs, TSField.truthy, JSDateArg.truthy, newDateGetTime]
    · simp [getTimeValue, entryWithTs, TSField.truthy, JSDateArg.truthy, newDateGetTime, ht]
  · simp [getTimeValue, entryWithTs, TSField.truthy, hs, hp]
  · by_cases ht : t = 0
    · subst ht
      simp [getTimeValue, entryWithTs, TSField.truthy]
    · simp [getTimeValue, entryWithTs, TSField.truthy, ht]

/-- Witness for C1 at the concrete parser `pfW` ("D" parses to instant 7). -/
theorem claim_C1_witness :
    getTimeValue pfW (entryWithTs (.obj (some (.dstr "D")))) = some 7 ∧
    getTimeValue pfW (entryWithTs (.obj (some (.dnum 7)))) = some 7 ∧
    getTimeValue pfW (entryWithTs (.str "D")) = some 7 ∧
    getTimeValue pfW (entryWithTs (.num 7)) = some 7 :=
  claim_C1 pfW "D" 7 (by decide) (by decide)

/-- C2 (amended): provided every record of the batch resolves to a real
(non-NaN) instant, the series builder's record sequence is ascending by
resolved instant over all adjacent pairs and the table's record sequence is
descending by resolved instant over all adjacent pairs. -/
theorem claim_C2 (pf : String → Option Int) (batch : List Entry) (m : Metric)
    (hreal : ∀ e ∈ batch, (getTimeValue pf e).isSome = true) :
    ascChain pf (seriesRecords pf batch m) = true ∧
    descChain pf (tableRecords pf batch) = true := by
  constructor
  · unfold ascChain seriesRecords
    refine chainB_mono _ ?_ (chainB_jsSort (seriesLe_total pf) _)
    intro a ha b hb hab
    rw [mem_jsSort, List.mem_filter] at ha hb
    obtain ⟨ka, hka⟩ := Option.isSome_iff_exists.mp (hreal a (List.mem_filter.mp ha.1).1)
    obtain ⟨kb, hkb⟩ := Option.isSome_iff_exists.mp (hreal b (List.mem_filter.mp hb.1).1)
    unfold seriesLe at hab
    rw [hka, hkb] at hab
    simp [jsSub, sortKeyLe] at hab
    simp [jsLeB, hka, hkb]
    omega
  · unfold descChain tableRecords
    refine chainB_mono _ ?_ (chainB_jsSort (tableLe_total pf) _)
    intro a ha b hb hab
    rw [mem_jsSort] at ha hb
    obtain ⟨ka, hka⟩ := Option.isSome_iff_exists.mp (hreal a ha)
    obtain ⟨kb, hkb⟩ := Option.isSome_iff_exists.mp (hreal b hb)
    unfold tableLe at hab
    rw [hka, hkb] at hab
    simp [jsSub, sortKeyLe] at hab
    simp [jsLeB, hka, hkb]
    omega

/-- Counterexample for C2 as stated: a batch containing a record with a
truthy but unparseable string timestamp (resolved instant NaN).  The series
builder's output is not ascending over adjacent pairs, neither under the JS
comparison semantics (comparisons with NaN are false) nor when the
unresolved instant is read as the spec's default 0. -/
theorem claim_C2_counterexample :
    ascChain pfNone (seriesRecords pfNone [eNum 5, eBad, eNum 3] .temperature) = false ∧
    chainB (fun a b => decide ((getTimeValue pfNone a).getD 0 ≤ (getTimeValue pfNone b).getD 0))
      (seriesRecords pfNone [eNum 5, eBad, eNum 3] .temperature) = false := by
  constructor <;> decide

/-- Witness for C2 on a concrete batch whose records all carry real
instants. -/
theorem claim_C2_witness :
    ascChain pfW (seriesRecords pfW [eNum 2, eNum 1] .temperature) = true ∧
    descChain pfW (tableRecords pfW [eNum 2, eNum 1]) = true :=
  claim_C2 pfW [eNum 2, eNum 1] .temperature (by decide)

/-- C3 (amended): the sentinel defaults (instant 0, display "Invalid",
table display "Invalid or Missing Date") apply exactly on the shapes the
code's sniffing rejects: an absent/null timestamp, the number 0, the empty
string, or a wrapper object without a truthy `$date`.  A truthy string (or
truthy `$date` string) with unparseable content instead resolves to NaN
(modelled `none`) and both display accessors yield "Invalid Date". -/
theorem claim_C3 (pf : String → Option Int) (fmt : Int → String) (e : Entry) :
    (shapeUnresolved e.timestamp = true →
      getTimeValue pf e = some 0 ∧ formatTimestamp pf fmt e = "Invalid" ∧
        tableDateStr pf fmt e = "Invalid or Missing Date") ∧
    (∀ s, e.timestamp = .str s → s ≠ "" → pf s = none →
      getTimeValue pf e = none ∧ formatTimestamp pf fmt e = "Invalid Date" ∧
        tableDateStr pf fmt e = "Invalid Date") ∧
    (∀ s, e.timestamp = .obj (some (.dstr s)) → s ≠ "" → pf s = none →
      getTimeValue pf e = none ∧ formatTimestamp pf fmt e = "Invalid Date" ∧
        tableDateStr pf fmt e = "Invalid Date") := by
  refine ⟨?_, ?_, ?_⟩
  · intro h
    cases hts : e.timestamp with
    | missing => simp [getTimeValue, formatTimestamp, tableDateStr, hts, TSField.truthy]
    | obj d =>
      cases d with
      | none => simp [getTimeValue, formatTimestamp, tableDateStr, hts, TSField.truthy]
      | some a =>
        rw [hts] at h
        simp [shapeUnresolved] at h
        simp [getTimeValue, formatTimestamp, tableDateStr, hts, TSField.truthy, h]
    | str s =>
      rw [hts] at h
      simp [shapeUnresolved] at h
      simp [getTimeValue, formatTimestamp, tableDateStr, hts, TSField.truthy, h]
    | num n =>
      rw [hts] at h
      simp [shapeUnresolved] at h
      simp [getTimeValue, formatTimestamp, tableDateStr, hts, TSField.truthy, h]
  · intro s hts hs hp
    simp [getTimeValue, formatTimestamp, tableDateStr, hts, TSField.truthy, hs, hp,
      jsToLocaleString]
  · intro s hts hs hp
    simp [getTimeValue, formatTimestamp, tableDateStr, hts, TSField.truthy, JSDateArg.truthy,
      newDateGetTime, hs, hp, jsToLocaleString]

/-- Counterexample for C3 as stated: a record whose timestamp is the truthy
but unparseable string "not-a-date" resolves to NaN, not 0, and both
display accessors yield "Invalid Date", not their sentinels. -/
theorem claim_C3_counterexample :
    getTimeValue pfNone (entryWithTs (.str "not-a-date")) ≠ some 0 ∧
    formatTimestamp pfNone fmtW (entryWithTs (.str "not-a-date")) ≠ "Invalid" ∧
    tableDateStr pfNone fmtW (entryWithTs (.str "not-a-date")) ≠ "Invalid or Missing Date" := by
  refine ⟨by decide, by decide, by decide⟩

/-- Witness for C3 at a record with an absent timestamp. -/
theorem claim_C3_witness :
    getTimeValue pfW (entryWithTs .missing) = some 0 ∧
    formatTimestamp pfW fmtW (entryWithTs .missing) = "Invalid" ∧
    tableDateStr pfW fmtW (entryWithTs .missing) = "Invalid or Missing Date" :=
  (claim_C3 pfW fmtW (entryWithTs .missing)).1 (by decide)

/-- C4 (amended): for a record whose timestamp is the number `n`, the
sort-key accessor returns `n` for every `n` including 0 (at 0 via the falsy
fall-through default, which coincides with the value); the display
accessors format `n` as a date only for nonzero `n`, while at 0 the
truthiness guard rejects the field and the sentinels are returned. -/
theorem claim_C4 (pf : String → Option Int) (fmt : Int → String) (n : Int) :
    getTimeValue pf (entryWithTs (.num n)) = some n ∧
    (n ≠ 0 → formatTimestamp pf fmt (entryWithTs (.num n)) = fmt n ∧
      tableDateStr pf fmt (entryWithTs (.num n)) = fmt n) ∧
    formatTimestamp pf fmt (entryWithTs (.num 0)) = "Invalid" ∧
    tableDateStr pf fmt (entryWithTs (.num 0)) = "Invalid or Missing Date" := by
  refine ⟨?_, ?_, ?_, ?_⟩
  · by_cases hn : n = 0
    · subst hn
      simp [getTimeValue, entryWithTs, TSField.truthy]
    · simp [getTimeValue, entryWithTs, TSField.truthy, hn]
  · intro hn
    exact ⟨by simp [formatTimestamp, entryWithTs, TSField.truthy, hn, jsToLocaleString],
      by simp [tableDateStr, entryWithTs, TSField.truthy, hn, jsToLocaleString]⟩
  · simp [formatTimestamp, entryWithTs, TSField.truthy]
  · simp [tableDateStr, entryWithTs, TSField.truthy]

/-- Counterexample for C4 as stated: at the numeric timestamp 0 the chart
display accessor yields the sentinel "Invalid", not the date formatting of
instant 0. -/
theorem claim_C4_counterexample :
    formatTimestamp pfW fmtW (entryWithTs (.num 0)) = "Invalid" ∧
    jsToLocaleString fmtW (some 0) ≠ "Invalid" := by
  refine ⟨by decide, by decide⟩

/-- Witness for C4 at the nonzero numeric timestamp 5. -/
theorem claim_C4_witness :
    getTimeValue pfW (entryWithTs (.num 5)) = some 5 ∧
    formatTimestamp pfW fmtW (entryWithTs (.num 5)) = fmtW 5 ∧
    tableDateStr pfW fmtW (entryWithTs (.num 5)) = fmtW 5 :=
  ⟨(claim_C4 pfW fmtW 5).1, ((claim_C4 pfW fmtW 5).2.1 (by decide)).1,
    ((claim_C4 pfW fmtW 5).2.1 (by decide)).2⟩

/-- C5: every point of the series builder's output is derived from a batch
record whose value for the requested metric is present and which carries
some telemetry; when no record of the batch has the metric the output is
the empty sequence. -/
theorem claim_C5 (pf : String → Option Int) (fmt : Int → String)
    (batch : List Entry) (m : Metric) :
    (∀ p ∈ buildSeries pf fmt batch m, ∃ e, e ∈ batch ∧ (e.metric m).isSome = true ∧
      hasTelemetry e = true ∧ p = { time := formatTimestamp pf fmt e, value := e.metric m }) ∧
    ((∀ e ∈ batch, e.metric m = none) → buildSeries pf fmt batch m = []) := by
  constructor
  · intro p hp
    unfold buildSeries at hp
    rw [List.mem_map] at hp
    obtain ⟨e, he, rfl⟩ := hp
    have h := mem_of_mem_seriesRecords he
    exact ⟨e, h.1, h.2.1, h.2.2, rfl⟩
  · intro h
    have hnil : (batch.filter hasTelemetry).filter (fun e => (e.metric m).isSome) = [] := by
      rw [List.filter_eq_nil_iff]
      intro e he
      have hnone := h e (List.mem_filter.mp he).1
      simp [hnone]
    unfold buildSeries seriesRecords
    rw [hnil]
    rfl

/-- Witness for C5: a batch with a temperature-only record yields an empty
humidity series. -/
theorem claim_C5_witness :
    buildSeries pfW fmtW [eNum 5] .humidity = [] :=
  (claim_C5 pfW fmtW [eNum 5] .humidity).2 (by decide)

/-- C6: the metric list always contains temperature, humidity and pressure,
and contains the light-intensity key exactly when some record of the batch
has a non-null percentage_light_intensity value. -/
theorem claim_C6 (batch : List Entry) :
    Metric.temperature ∈ availableMetrics batch ∧
    Metric.humidity ∈ availableMetrics batch ∧
    Metric.pressure ∈ availableMetrics batch ∧
    (Metric.percentage_light_intensity ∈ availableMetrics batch ↔
      batch.any (fun e => e.percentage_light_intensity.isSome) = true) := by
  refine ⟨by simp [availableMetrics], by simp [availableMetrics], by simp [availableMetrics], ?_⟩
  constructor
  · intro hmem
    by_cases h : hasLightIntensity batch = true
    · rcases batch with _ | ⟨a, t⟩
      · simp [hasLightIntensity] at h
      · simpa [hasLightIntensity] using h
    · simp [availableMetrics, h] at hmem
  · intro hany
    have h : hasLightIntensity batch = true := by
      rcases batch with _ | ⟨a, t⟩
      · simp at hany
      · simp [hasLightIntensity, hany]
    simp [availableMetrics, h]

/-- C7: the table projection yields exactly one row per batch record, and
the optional light-intensity cell is present in every row exactly when the
metric is active for the batch. -/
theorem claim_C7 (pf : String → Option Int) (fmt : Int → String) (batch : List Entry) :
    (buildTableRows pf fmt batch).length = batch.length ∧
    ∀ r ∈ buildTableRows pf fmt batch, r.lightIntensity.isSome = hasLightIntensity batch := by
  constructor
  · unfold buildTableRows tableRender tableRecords
    simp [List.length_map, length_jsSort]
  · intro r hr
    unfold buildTableRows tableRender at hr
    rw [List.mem_map] at hr
    obtain ⟨e, he, rfl⟩ := hr
    cases h : hasLightIntensity batch <;> simp [buildTableRow, h]

/-- Witness for C7 on a concrete one-record batch. -/
theorem claim_C7_witness :
    (buildTableRows pfW fmtW [eNum 5]).length = 1 ∧
    (buildTableRow pfW fmtW (hasLightIntensity [eNum 5]) (eNum 5)).lightIntensity.isSome =
      hasLightIntensity [eNum 5] :=
  ⟨(claim_C7 pfW fmtW [eNum 5]).1, (claim_C7 pfW fmtW [eNum 5]).2 _ (by decide)⟩

/-- C8: a table cell renders the sentinel exactly when the raw metric value
is falsy (absent, null, or the number 0) and the raw number otherwise; the
row cells are exactly these renderings of the record's raw values, and a
record with temperature 0 renders the sentinel in the temperature cell. -/
theorem claim_C8 (pf : String → Option Int) (fmt : Int → String) (b : Bool) (e : Entry) :
    (∀ v : Option Int, (renderCell v = CellVal.na ↔ v = none ∨ v = some 0) ∧
      ∀ n : Int, v = some n → n ≠ 0 → renderCell v = CellVal.num n) ∧
    (buildTableRow pf fmt b e).temperature = renderCell e.temperature ∧
    (buildTableRow pf fmt b e).humidity = renderCell e.humidity ∧
    (buildTableRow pf fmt b e).pressure = renderCell e.pressure ∧
    (b = true →
      (buildTableRow pf fmt b e).lightIntensity =
        some (renderCell e.percentage_light_intensity)) ∧
    (buildTableRow pf fmt b { e with temperature := some 0 }).temperature = CellVal.na := by
  refine ⟨?_, rfl, rfl, rfl, ?_, ?_⟩
  · intro v
    constructor
    · rcases v with _ | n
      · simp [renderCell]
      · by_cases hn : n = 0 <;> simp [renderCell, hn]
    · intro n hv hn
      subst hv
      simp [renderCell, hn]
  · intro hb
    subst hb
    simp [buildTableRow]
  · simp [buildTableRow, renderCell]

/-- Witness for C8: the zero and nonzero readings at concrete inputs. -/
theorem claim_C8_witness :
    renderCell (some 0) = CellVal.na ∧ renderCell (some 5) = CellVal.num 5 ∧
    (buildTableRow pfW fmtW true (eNum 1)).lightIntensity = some (renderCell none) :=
  ⟨((claim_C8 pfW fmtW true (eNum 1)).1 (some 0)).1.mpr (Or.inr rfl),
    ((claim_C8 pfW fmtW true (eNum 1)).1 (some 5)).2 5 rfl (by decide),
    (claim_C8 pfW fmtW true (eNum 1)).2.2.2.2.1 rfl⟩

/-- C9: the chart derivation sorts a spread copy and leaves the stored
batch unchanged, but the table derivation calls `sort` on the stored array
itself: on the ascending two-record batch the stored array afterwards holds
the descending order, contradicting the claim that the table projection
leaves the stored record list unchanged. -/
theorem claim_C9 :
    (seriesRender pfW fmtW [eNum 1, eNum 2] Metric.temperature).2 = [eNum 1, eNum 2] ∧
    (tableRender pfW fmtW [eNum 1, eNum 2]).2 ≠ [eNum 1, eNum 2] ∧
    (tableRender pfW fmtW [eNum 1, eNum 2]).2 = [eNum 2, eNum 1] :=
  ⟨rfl, by decide, by decide⟩

/-- C10: when the telemetry fetch fails, the handler leaves both store
fields at their prior values and emits only the console error message. -/
theorem claim_C10 (id : Int) (err : String) (name : String) (st : Store) :
    (handleClick id (.error err) name st).1 = st ∧
    (handleClick id (.error err) name st).2 = ["Error loading data: " ++ err] :=
  ⟨rfl, rfl⟩

end DataAkamuthu
